import Mathlib

set_option maxRecDepth 16384

/-!
Verification of the error-resolver core against its specification.

The definitions below are a shallow embedding of the TypeScript sources:

* `src/terminalMonitor.ts` — the stdout/stderr character loop of
  `createMonitoredTerminal` (line reassembly);
* `src/errorResolver.ts` — `ErrorResolver.detectErrors`,
  `ErrorResolver.resolveErrors`, `RCALogSearcher.calculateRelevance`,
  `RCALogSearcher.analyzeRCAFile`, `RCALogSearcher.searchRCALogs`,
  `ErrorPatternLoader.mergeConfigurations`;
* `src/extension.ts` — the notification deduplication in the
  `onOutputReceived` debounce handler.

JavaScript regular-expression evaluation is treated as an external
component: functions that receive a pattern string and call
`line.match(new RegExp(pattern, 'i'))` are parameterised over an abstract
matcher of type `RegexMatcher`.  Fixed literal regexes appearing in the
source are translated into explicit character-level scanners.
-/

namespace ErrResolver

/-! ## Line reassembly

`createMonitoredTerminal` (src/terminalMonitor.ts, stdout `data` handler,
lines 98-128).  The handler walks the chunk character by character with a
persistent `lineBuffer`:

* `'\r'` whose successor *within the same chunk* is `'\n'` emits
  `lineBuffer` as a completed line and consumes both characters;
* a standalone `'\r'` (including one that ends the chunk) clears
  `lineBuffer` without emitting;
* `'\n'` emits `lineBuffer` as a completed line;
* any other character is appended to `lineBuffer`.

An "emitted line" below is the `lineBuffer` content passed to
`notifyOutputReceived(lineBuffer + '\n')`.
-/

def processChars : List Char → String → String × List String
  | [], buf => (buf, [])
  | c :: rest, buf =>
    if c = '\r' then
      match rest with
      | [] => ("", [])
      | c2 :: rest2 =>
        if c2 = '\n' then
          let p := processChars rest2 ""
          (p.1, buf :: p.2)
        else
          processChars (c2 :: rest2) ""
    else if c = '\n' then
      let p := processChars rest ""
      (p.1, buf :: p.2)
    else
      processChars rest (buf.push c)

/-- One `data` event: feed a chunk through the character loop, starting from
the buffered partial line. -/
def processChunk (buf : String) (chunk : String) : String × List String :=
  processChars chunk.toList buf

/-- A sequence of `data` events: the partial-line buffer persists across
chunks; emitted lines accumulate in order. -/
def processChunks (chunks : List String) : String × List String :=
  chunks.foldl (fun st ch =>
    let p := processChunk st.1 ch
    (p.1, st.2 ++ p.2)) ("", [])

/-- The complete lines emitted over a sequence of `data` events. -/
def emittedLines (chunks : List String) : List String :=
  (processChunks chunks).2

end ErrResolver

namespace ErrResolver

/-! Helper lemmas for the character loop. -/

theorem processChars_push (pre : List Char) (buf : String)
    (h : ∀ c ∈ pre, c ≠ '\r' ∧ c ≠ '\n') (rest : List Char) :
    processChars (pre ++ rest) buf = processChars rest (pre.foldl String.push buf) := by
  induction pre generalizing buf with
  | nil => simp
  | cons c cs ih =>
    have hc := h c (by simp)
    have hcs : ∀ c ∈ cs, c ≠ '\r' ∧ c ≠ '\n' := fun c hcmem => h c (by simp [hcmem])
    simp only [List.cons_append, List.foldl_cons]
    rw [processChars.eq_def]
    simp only [hc.1, hc.2, if_false]
    exact ih (buf.push c) hcs

theorem processChars_length_count (cs : List Char) (buf : String) :
    ((processChars cs buf).2).length = cs.count '\n' := by
  induction cs, buf using processChars.induct with
  | case1 buf => simp [processChars]
  | case2 buf =>
    rw [processChars.eq_def]
    simp [List.count_cons]
  | case3 buf rest2 ih =>
    rw [processChars.eq_def]
    simp [List.count_cons, ih]
  | case4 buf c2 rest2 h2 ih =>
    rw [processChars.eq_def]
    simp [h2, List.count_cons, ih]
  | case5 rest buf hr ih =>
    rw [processChars.eq_def]
    simp [List.count_cons, ih]
  | case6 c rest buf hr hn ih =>
    rw [processChars.eq_def]
    simp [hr, hn, List.count_cons, ih]

/-- C1: chunk-boundary independence of line reassembly FAILS on the code.
Feeding `"a\r\n"` in a single chunk emits the line `"a"`, but feeding the
same characters one at a time emits the empty line `""`: the `'\r'` that
ends a chunk is treated as a standalone carriage return (the look-ahead for
`'\n'` in `createMonitoredTerminal` only inspects the current chunk), so it
clears the buffer, and the following `'\n'` then emits an empty line.  The
resulting sets of emitted lines, `{"a"}` and `{""}`, differ. -/
theorem C1_chunk_boundary_dependence_failing :
    emittedLines ["a\r\n"] = ["a"] ∧ emittedLines ["a", "\r", "\n"] = [""] := by
  constructor <;> rfl

/-- C7: carriage-return semantics of the line-mode character loop.  Running
the loop on a chunk whose next characters are a terminator-free prefix
`pre` followed by a carriage return: (1) a `'\r'` that ends the chunk
clears the in-progress buffer and emits nothing; (2) a `'\r'` followed by a
character other than `'\n'` clears the buffer, emits nothing, and
processing continues at that character; (3) a `"\r\n"` pair emits exactly
one completed line (the buffered text) and consumes both characters. -/
theorem C7_carriage_return_semantics (pre : List Char) (buf : String)
    (h : ∀ c ∈ pre, c ≠ '\r' ∧ c ≠ '\n') :
    processChars (pre ++ ['\r']) buf = ("", []) ∧
    (∀ c rest, c ≠ '\n' →
      processChars (pre ++ '\r' :: c :: rest) buf = processChars (c :: rest) "") ∧
    (∀ rest, processChars (pre ++ '\r' :: '\n' :: rest) buf =
      ((processChars rest "").1, (pre.foldl String.push buf) :: (processChars rest "").2)) := by
  refine ⟨?_, ?_, ?_⟩
  · rw [processChars_push pre buf h, processChars.eq_def]
    simp
  · intro c rest hc
    rw [processChars_push pre buf h, processChars.eq_def]
    simp [hc]
  · intro rest
    rw [processChars_push pre buf h, processChars.eq_def]
    simp

/-- Witness for C7 at a concrete input: buffer `"x"`, prefix `"ab"`; the
`"\r\n"` pair emits exactly the one line `"xab"`. -/
theorem C7_carriage_return_semantics_witness :
    (∀ c ∈ ("ab".toList), c ≠ '\r' ∧ c ≠ '\n') ∧
    processChars ("ab".toList ++ '\r' :: '\n' :: []) "x" = ("", ["xab"]) := by
  refine ⟨by decide, ?_⟩
  rw [(C7_carriage_return_semantics "ab".toList "x" (by decide)).2.2 []]
  rfl

/-- C10: a line terminator always emits a line, regardless of buffer
content.  The number of lines emitted while processing a chunk equals the
number of `'\n'` characters in the chunk (each `'\n'`, bare or preceded by
`'\r'`, emits exactly one line; nothing else emits); in particular a
`'\n'` arriving while the pending buffer is empty emits the empty line. -/
theorem C10_terminator_always_emits :
    (∀ cs buf, ((processChars cs buf).2).length = cs.count '\n') ∧
    (∀ rest, processChars ('\n' :: rest) "" =
      ((processChars rest "").1, "" :: (processChars rest "").2)) := by
  refine ⟨processChars_length_count, ?_⟩
  intro rest
  rw [processChars.eq_def]
  simp

/-! ## Error detection

`ErrorResolver.detectErrors` (src/errorResolver.ts, lines 63-168) and its
helpers `getContextForPattern`, `getContext`, `extractStackTrace`
(lines 173-223).  JS regular expressions are abstracted: a `RegexMatcher`
maps a pattern source string and a line to `line.match(new RegExp(pattern,
'i'))`, i.e. `none` for no match and `some m` with `m` the match array
(index 0 the whole match, index `k` the `k`-th capture group; a JS
`undefined` or empty group is modelled as `""`, which the source treats
identically because it only uses groups through falsy-checks). -/

/-- `hay.includes(needle)` on JS strings. -/
def strIncludes (hay needle : String) : Bool :=
  hay.toList.tails.any (fun t => needle.toList.isPrefixOf t)

/-- `toLowerCase` via a plain character-list map (the library's
`String.toLower` is position-based and does not reduce in the kernel;
this one does, with the same result on these inputs). -/
def toLowerStr (s : String) : String := (s.toList.map Char.toLower).asString

/-- JS `trim`: strip whitespace from both ends. -/
def trimStr (s : String) : String :=
  (((s.toList.dropWhile (fun c => c.isWhitespace)).reverse.dropWhile
    (fun c => c.isWhitespace)).reverse).asString

/-- JS `split(sep)` on a single separator character, keeping empty
pieces. -/
def splitOnCharList (sep : Char) : List Char → List (List Char)
  | [] => [[]]
  | c :: rest =>
    let r := splitOnCharList sep rest
    if c = sep then [] :: r
    else
      match r with
      | [] => [[c]]
      | g :: gs => (c :: g) :: gs

/-- Pieces between characters satisfying `p`, keeping empty pieces. -/
def splitOnPredList (p : Char → Bool) : List Char → List (List Char)
  | [] => [[]]
  | c :: rest =>
    let r := splitOnPredList p rest
    if p c then [] :: r
    else
      match r with
      | [] => [[c]]
      | g :: gs => (c :: g) :: gs

/-- `output.split('\n')`. -/
def splitLines (s : String) : List String :=
  (splitOnCharList '\n' s.toList).map List.asString

/-- JS `parseInt` on the strings fed to it by `detectErrors` (optional
whitespace, optional sign, leading decimal digits); `NaN` is modelled as
`none`. -/
def parseIntJS (s : String) : Option Int :=
  let cs := s.toList.dropWhile (fun c => c.isWhitespace)
  let signRest : Int × List Char :=
    match cs with
    | '-' :: r => (-1, r)
    | '+' :: r => (1, r)
    | r => (1, r)
  let ds := signRest.2.takeWhile (fun c => c.isDigit)
  if ds.isEmpty then none
  else some (signRest.1 * (ds.foldl (fun n c => n * 10 + (c.toNat - '0'.toNat)) 0 : Nat))

/-- A JS regex evaluation oracle: `M pattern line` is
`line.match(new RegExp(pattern, 'i'))`. -/
abbrev RegexMatcher := String → String → Option (List String)

/-- `FieldExtractor` (src/errorPatternLoader.ts). -/
structure FieldExtractor where
  regex : String
  group : Nat
deriving DecidableEq, Repr

/-- `ContextExtraction` (src/errorPatternLoader.ts); absent optional fields
are the normalized defaults filled in by `normalizePattern`. -/
structure ContextExtraction where
  linesAbove : Nat
  linesBelow : Nat
  includeStackTrace : Bool
  stackTraceDepth : Nat
deriving DecidableEq, Repr

/-- `ErrorPattern` (src/errorPatternLoader.ts); `extractFields` keeps the
JS object's insertion order, as iterated by `Object.entries`. -/
structure ErrorPattern where
  name : String
  enabled : Bool
  type : String
  pattern : String
  priority : Int
  groupConsecutive : Bool
  contextExtraction : ContextExtraction
  extractFields : List (String × FieldExtractor)
deriving DecidableEq, Repr

/-- `DetectedError` (src/errorResolver.ts). -/
structure DetectedError where
  errorMessage : String
  errorType : String
  stackTrace : Option String
  lineNumber : Option Int
  file : Option String
  context : String
deriving DecidableEq, Repr

/-- `ErrorResolver.getContextForPattern` (lines 173-183).  The JS `|| 1` /
`|| 3` defaults turn a zero into the default; `Math.max(0, ·)` is Nat
truncated subtraction. -/
def getContextForPattern (maxContextLines : Nat) (lines : List String)
    (errorIndex : Nat) (p : ErrorPattern) : String :=
  let linesAbove := if p.contextExtraction.linesAbove = 0 then 1 else p.contextExtraction.linesAbove
  let linesBelow := if p.contextExtraction.linesBelow = 0 then 3 else p.contextExtraction.linesBelow
  let start := errorIndex - linesAbove
  let stop := min lines.length (errorIndex + linesBelow + 1)
  let stop2 := min stop (start + maxContextLines)
  String.intercalate "\n" ((lines.drop start).take (stop2 - start))

/-- `ErrorResolver.getContext` (lines 188-192). -/
def getContext (lines : List String) (errorIndex : Nat) (contextSize : Nat) : String :=
  let start := errorIndex - contextSize
  let stop := min lines.length (errorIndex + contextSize + 1)
  String.intercalate "\n" ((lines.drop start).take (stop - start))

/-- One line of a stack trace, per the fixed regexes of
`extractStackTrace` (lines 206-212): `/^\s+at /`, `/^\s+File "/`,
`/^\s+in /`, `/^\s+\d+: /`, or a line whose trimmed form starts with
`>`. -/
def isStackFrameLine (line : String) : Bool :=
  let cs := line.toList
  let ws := cs.takeWhile (fun c => c.isWhitespace)
  let rest := cs.drop ws.length
  let indented (p : String) : Bool := !ws.isEmpty && p.toList.isPrefixOf rest
  indented "at " || indented "File \"" || indented "in " ||
    (!ws.isEmpty &&
      (let ds := rest.takeWhile (fun c => c.isDigit)
       !ds.isEmpty && (": ".toList.isPrefixOf (rest.drop ds.length)))) ||
    ">".toList.isPrefixOf (trimStr line).toList

/-- The `while` loop of `extractStackTrace`: starting at line `i` with
`fuel = stop - i` remaining iterations, collect stack-frame lines, skip
blank lines, stop at the first other line. -/
def collectStack (lines : List String) : Nat → Nat → List String
  | _, 0 => []
  | i, fuel + 1 =>
    match lines.get? i with
    | none => []
    | some line =>
      if isStackFrameLine line then line :: collectStack lines (i + 1) fuel
      else if trimStr line = "" then collectStack lines (i + 1) fuel
      else []

/-- `ErrorResolver.extractStackTrace` (lines 197-223). -/
def extractStackTrace (lines : List String) (startIndex : Nat) (maxDepth : Nat) :
    Option String :=
  let stackLines := collectStack lines (startIndex + 1) (startIndex + maxDepth - (startIndex + 1))
  if stackLines.isEmpty then none else some (String.intercalate "\n" stackLines)

/-- `match[1] || match[0]` (line 81): the first capture group when present
and non-empty (JS falsy check), otherwise the whole match. -/
def matchMessage (m : List String) : String :=
  match m.get? 1 with
  | some s => if s = "" then m.headD "" else s
  | none => m.headD ""

/-- One entry of the `extractFields` loop (lines 124-144).  `defaultMsg` is
the `const errorMessage` of the enclosing match, against which the length
comparison is made. -/
def applyExtractField (M : RegexMatcher) (line : String) (defaultMsg : String)
    (e : DetectedError) (fe : String × FieldExtractor) : DetectedError :=
  match M fe.2.regex line with
  | none => e
  | some fm =>
    if fe.2.group < fm.length then
      let value := fm.getD fe.2.group ""
      if fe.1 = "filePath" ∨ fe.1 = "file" then { e with file := some value }
      else if fe.1 = "lineNumber" then { e with lineNumber := parseIntJS value }
      else if fe.1 = "errorMessage" then
        if value ≠ "" ∧ defaultMsg.length < value.length then { e with errorMessage := value }
        else e
      else e
    else e

/-- Construction of a fresh `DetectedError` for a match of pattern `p` at
line index `i` (lines 117-156). -/
def mkDetectedError (M : RegexMatcher) (maxContextLines : Nat) (lines : List String)
    (i : Nat) (p : ErrorPattern) (line : String) (errorMessage : String) : DetectedError :=
  let base : DetectedError :=
    { errorMessage := errorMessage
      errorType := p.type
      stackTrace := none
      lineNumber := none
      file := none
      context := getContextForPattern maxContextLines lines i p }
  let e := p.extractFields.foldl (applyExtractField M line errorMessage) base
  if p.contextExtraction.includeStackTrace then
    let depth := if p.contextExtraction.stackTraceDepth = 0 then 10
                 else p.contextExtraction.stackTraceDepth
    match extractStackTrace lines i depth with
    | some st => { e with stackTrace := some st }
    | none => e
  else e

/-- The mutable loop state of `detectErrors`: the accumulated `errors`
array, the `seenErrors` set, and the grouping trackers `lastErrorType` /
`lastErrorLine` (initially `null` / `-1`). -/
structure DetectState where
  errors : List DetectedError
  seen : List String
  lastErrorType : Option String
  lastErrorLine : Int
deriving DecidableEq, Repr

/-- The grouping branch (lines 91-107): widen the previous error's context
and append the new message unless its 20-character prefix already occurs.
`lastErrorLine` is non-negative whenever this branch runs (a previous
match set it), hence the `Int.toNat`. -/
def mergeIntoLast (lines : List String) (i : Nat) (type errorMessage : String)
    (st : DetectState) : DetectState :=
  match st.errors.getLast? with
  | none => st
  | some lastError =>
    if lastError.errorType = type then
      let newCtx := getContext lines st.lastErrorLine.toNat
        (((i : Int) - st.lastErrorLine).natAbs + 3)
      let newMsg :=
        if strIncludes lastError.errorMessage (errorMessage.take 20) then
          lastError.errorMessage
        else lastError.errorMessage ++ " | " ++ errorMessage
      { st with errors := st.errors.dropLast ++
          [{ lastError with context := newCtx, errorMessage := newMsg }] }
    else st

/-- The inner `for (const patternConfig of patterns)` loop for one line
(lines 77-164): the first matching pattern either merges into the previous
error (`break`), is skipped as an in-pass duplicate (`continue`, so later
patterns still run), or emits a fresh error (`break`). -/
def tryPatterns (M : RegexMatcher) (maxContextLines : Nat) (lines : List String)
    (i : Nat) (line : String) (st : DetectState) : List ErrorPattern → DetectState
  | [] => st
  | p :: rest =>
    match M p.pattern line with
    | none => tryPatterns M maxContextLines lines i line st rest
    | some m =>
      let errorMessage := matchMessage m
      if st.lastErrorType = some p.type ∧ (i : Int) - st.lastErrorLine ≤ 10 ∧
          p.groupConsecutive then
        mergeIntoLast lines i p.type errorMessage st
      else
        let errorKey := p.type ++ ":" ++ errorMessage.take 100
        if st.seen.contains errorKey then
          tryPatterns M maxContextLines lines i line st rest
        else
          { errors := st.errors ++ [mkDetectedError M maxContextLines lines i p line errorMessage]
            seen := errorKey :: st.seen
            lastErrorType := some p.type
            lastErrorLine := (i : Int) }

/-- The outer `for (let i = 0; i < lines.length; i++)` loop: `todo` is the
remaining suffix of `lines` starting at index `i`. -/
def detectLoop (M : RegexMatcher) (patterns : List ErrorPattern) (maxContextLines : Nat)
    (lines : List String) : Nat → List String → DetectState → DetectState
  | _, [], st => st
  | i, line :: todo, st =>
    detectLoop M patterns maxContextLines lines (i + 1) todo
      (tryPatterns M maxContextLines lines i line st patterns)

/-- `ErrorResolver.detectErrors` on an already-split batch of lines. -/
def detectErrorsLines (M : RegexMatcher) (patterns : List ErrorPattern)
    (maxContextLines : Nat) (lines : List String) : List DetectedError :=
  (detectLoop M patterns maxContextLines lines 0 lines
    { errors := [], seen := [], lastErrorType := none, lastErrorLine := -1 }).errors

/-- `ErrorResolver.detectErrors` (lines 63-168): split the output on
`'\n'` and run the detection loop. -/
def detectErrors (M : RegexMatcher) (patterns : List ErrorPattern)
    (maxContextLines : Nat) (output : String) : List DetectedError :=
  detectErrorsLines M patterns maxContextLines (splitLines output)

/-! ## Pattern configuration merging

`ErrorPatternLoader.mergeConfigurations` (src/terminalMonitor.ts dump,
lines 936-972).  Configurations are walked in reverse so that later
(custom) files override earlier (default) ones; patterns are de-duplicated
by `name`, filtered to the enabled ones, and sorted by the comparator
`(a, b) => b.priority - a.priority` — a stable descending sort by
priority.  `normalizePattern`'s filling of absent optional fields happens
per pattern before this model's `ErrorPattern` records exist. -/

def collectPatterns (configs : List (List ErrorPattern)) : List ErrorPattern :=
  (configs.reverse.foldl (fun acc ps =>
    ps.foldl (fun acc p =>
      if acc.2.contains p.name then acc
      else (acc.1 ++ [p], p.name :: acc.2)) acc)
    (([], []) : List ErrorPattern × List String)).1

/-- The sort order of `mergeConfigurations`: descending priority. -/
def patternLE (a b : ErrorPattern) : Bool := decide (b.priority ≤ a.priority)

def mergeConfigurations (configs : List (List ErrorPattern)) : List ErrorPattern :=
  ((collectPatterns configs).filter (fun p => p.enabled)).mergeSort patternLE

end ErrResolver

namespace ErrResolver

/-! Lemmas about the detection loop. -/

theorem tryPatterns_nonmatching (M : RegexMatcher) (maxCtx : Nat) (lines : List String)
    (i : Nat) (line : String) (st : DetectState) (ps : List ErrorPattern)
    (h : ∀ p ∈ ps, M p.pattern line = none) :
    tryPatterns M maxCtx lines i line st ps = st := by
  induction ps with
  | nil => rfl
  | cons p rest ih =>
    have hp : M p.pattern line = none := h p (by simp)
    simp only [tryPatterns, hp]
    exact ih (fun q hq => h q (by simp [hq]))

theorem detectLoop_nonmatching (M : RegexMatcher) (ps : List ErrorPattern)
    (maxCtx : Nat) (lines : List String) (chunk todo : List String)
    (i : Nat) (st : DetectState)
    (h : ∀ l ∈ chunk, ∀ p ∈ ps, M p.pattern l = none) :
    detectLoop M ps maxCtx lines i (chunk ++ todo) st =
      detectLoop M ps maxCtx lines (i + chunk.length) todo st := by
  induction chunk generalizing i st with
  | nil => simp
  | cons l rest ih =>
    have hl : ∀ p ∈ ps, M p.pattern l = none := h l (by simp)
    simp only [List.cons_append, detectLoop, tryPatterns_nonmatching M maxCtx lines i l st ps hl]
    have hlen : i + 1 + rest.length = i + (l :: rest).length := by
      simp only [List.length_cons]
      omega
    simp only [List.append_eq]
    rw [ih (i + 1) st (fun l' hl' => h l' (by simp [hl'])), hlen]

theorem detectLoop_nil (M : RegexMatcher) (ps : List ErrorPattern) (maxCtx : Nat)
    (lines : List String) (i : Nat) (st : DetectState) :
    detectLoop M ps maxCtx lines i [] st = st := rfl

/-- The in-pass dedup key is injective in the message prefix for a fixed
type. -/
theorem errorKey_inj (t a b : String) (h : t ++ ":" ++ a = t ++ ":" ++ b) : a = b := by
  have hd := congrArg String.data h
  simp only [String.data_append] at hd
  have := List.append_cancel_left hd
  exact String.ext this

theorem tryPatterns_single_push (M : RegexMatcher) (maxCtx : Nat) (lines : List String)
    (i : Nat) (l : String) (m : List String) (p : ErrorPattern) (st : DetectState)
    (hm : M p.pattern l = some m)
    (hng : ¬(st.lastErrorType = some p.type ∧ (i : Int) - st.lastErrorLine ≤ 10 ∧
      p.groupConsecutive = true))
    (hns : st.seen.contains (p.type ++ ":" ++ (matchMessage m).take 100) = false)
    (rest : List ErrorPattern) :
    tryPatterns M maxCtx lines i l st (p :: rest) =
      { errors := st.errors ++ [mkDetectedError M maxCtx lines i p l (matchMessage m)]
        seen := (p.type ++ ":" ++ (matchMessage m).take 100) :: st.seen
        lastErrorType := some p.type
        lastErrorLine := (i : Int) } := by
  have hns' : (p.type ++ ":" ++ (matchMessage m).take 100) ∉ st.seen := by
    simpa using hns
  simp only [tryPatterns, hm]
  rw [if_neg hng]
  simp [hns']

theorem tryPatterns_single_group (M : RegexMatcher) (maxCtx : Nat) (lines : List String)
    (i : Nat) (l : String) (m : List String) (p : ErrorPattern) (st : DetectState)
    (hm : M p.pattern l = some m)
    (hg : st.lastErrorType = some p.type ∧ (i : Int) - st.lastErrorLine ≤ 10 ∧
      p.groupConsecutive = true) (rest : List ErrorPattern) :
    tryPatterns M maxCtx lines i l st (p :: rest) =
      mergeIntoLast lines i p.type (matchMessage m) st := by
  simp only [tryPatterns, hm]
  rw [if_pos hg]

theorem tryPatterns_single_dup (M : RegexMatcher) (maxCtx : Nat) (lines : List String)
    (i : Nat) (l : String) (m : List String) (p : ErrorPattern) (st : DetectState)
    (hm : M p.pattern l = some m)
    (hng : ¬(st.lastErrorType = some p.type ∧ (i : Int) - st.lastErrorLine ≤ 10 ∧
      p.groupConsecutive = true))
    (hs : st.seen.contains (p.type ++ ":" ++ (matchMessage m).take 100) = true) :
    tryPatterns M maxCtx lines i l st [p] = st := by
  -- the `continue` moves on to the (empty) remainder of the pattern list
  have hs' : (p.type ++ ":" ++ (matchMessage m).take 100) ∈ st.seen := by
    simpa using hs
  simp only [tryPatterns, hm]
  rw [if_neg hng]
  simp [hs', tryPatterns]

theorem mergeIntoLast_errors_length (lines : List String) (i : Nat)
    (type msg : String) (st : DetectState) :
    (mergeIntoLast lines i type msg st).errors.length = st.errors.length := by
  unfold mergeIntoLast
  cases h : st.errors.getLast? with
  | none => rfl
  | some lastError =>
    have hne : st.errors ≠ [] := by
      intro hnil
      rw [hnil] at h
      simp at h
    have hlen : 1 ≤ st.errors.length := List.length_pos.mpr hne
    by_cases ht : lastError.errorType = type
    · simp [ht, List.length_dropLast]
      omega
    · simp [ht]

/-- Processing the terminator-free prefix `pre` followed by the first
matching line `l1` takes the fresh detection state to the one-error
state. -/
theorem detect_prefix_state (M : RegexMatcher) (p : ErrorPattern) (maxCtx : Nat)
    (pre : List String) (rest : List String) (l1 : String) (m1 : List String)
    (hpre : ∀ l ∈ pre, M p.pattern l = none)
    (h1 : M p.pattern l1 = some m1) (lines : List String) :
    detectLoop M [p] maxCtx lines 0 (pre ++ l1 :: rest)
      { errors := [], seen := [], lastErrorType := none, lastErrorLine := -1 } =
    detectLoop M [p] maxCtx lines (pre.length + 1) rest
      { errors := [mkDetectedError M maxCtx lines pre.length p l1 (matchMessage m1)]
        seen := [p.type ++ ":" ++ (matchMessage m1).take 100]
        lastErrorType := some p.type
        lastErrorLine := (pre.length : Int) } := by
  rw [detectLoop_nonmatching M [p] maxCtx lines pre (l1 :: rest) 0 _
    (fun l hl q hq => by rw [List.mem_singleton] at hq; subst hq; exact hpre l hl)]
  simp only [Nat.zero_add, detectLoop]
  rw [tryPatterns_single_push M maxCtx lines pre.length l1 m1 p _ h1
    (by simp) (by simp) []]
  rfl

/-- Processing a trailing chunk of non-matching lines leaves the state
unchanged. -/
theorem detectLoop_nonmatching_tail (M : RegexMatcher) (ps : List ErrorPattern)
    (maxCtx : Nat) (lines : List String) (chunk : List String) (i : Nat) (st : DetectState)
    (h : ∀ l ∈ chunk, ∀ p ∈ ps, M p.pattern l = none) :
    detectLoop M ps maxCtx lines i chunk st = st := by
  have hx := detectLoop_nonmatching M ps maxCtx lines chunk [] i st h
  rw [List.append_nil] at hx
  exact hx.trans (detectLoop_nil M ps maxCtx lines (i + chunk.length) st)

end ErrResolver

namespace ErrResolver

/-- Concrete context-extraction record used by the concrete scenarios
below (the `normalizePattern` defaults). -/
def ctxDefault : ContextExtraction :=
  { linesAbove := 1, linesBelow := 3, includeStackTrace := false, stackTraceDepth := 10 }

/-- A concrete matcher modelling regexes that are plain literal text: the
whole match is the pattern itself whenever it occurs in the line, and
there are no capture groups. -/
def litMatcher : RegexMatcher := fun pat line =>
  if strIncludes line pat then some [pat] else none

/-- A concrete matcher modelling the anchored regex `^<pat>(.*)`: when the
line starts with the literal `pat`, the whole match is the line and the
single capture group is the remainder of the line. -/
def prefixRestMatcher : RegexMatcher := fun pat line =>
  if pat.toList.isPrefixOf line.toList then
    some [line, (line.toList.drop pat.length).asString]
  else none

/-- A `groupConsecutive = false` pattern of type `"t"` matching the
literal `"boom"`. -/
def groupOffPattern : ErrorPattern :=
  { name := "boom-rule", enabled := true, type := "t", pattern := "boom", priority := 10
    groupConsecutive := false, contextExtraction := ctxDefault, extractFields := [] }

/-- C3 counterexample: a batch with two matches of the same type within
the grouping distance and `groupConsecutive = false` emits ONE
`DetectedError`, not the two the claim requires: both matches extract the
message `"boom"`, so the second is suppressed by the in-pass
`seenErrors` dedup (key = type plus first 100 message characters). -/
theorem C3_counterexample :
    (detectErrorsLines litMatcher [groupOffPattern] 50 ["boom", "boom"]).length = 1 := by
  decide

/-- C3 (amended): in a batch whose only matches of pattern `p` are two
lines `l1` and `l2` separated by at most 9 non-matching lines (so the
second match is within the 10-line grouping distance of the first),
`groupConsecutive = true` yields exactly one `DetectedError`, and
`groupConsecutive = false` yields two PROVIDED the two extracted messages
differ in their first 100 characters (otherwise the in-pass dedup
suppresses the second, see the counterexample). -/
theorem C3_grouping (M : RegexMatcher) (p : ErrorPattern) (maxCtx : Nat)
    (pre mid post : List String) (l1 l2 : String) (m1 m2 : List String)
    (hpre : ∀ l ∈ pre, M p.pattern l = none)
    (hmid : ∀ l ∈ mid, M p.pattern l = none)
    (hpost : ∀ l ∈ post, M p.pattern l = none)
    (h1 : M p.pattern l1 = some m1) (h2 : M p.pattern l2 = some m2)
    (hd : mid.length ≤ 9) :
    (p.groupConsecutive = true →
      (detectErrorsLines M [p] maxCtx (pre ++ l1 :: (mid ++ l2 :: post))).length = 1) ∧
    (p.groupConsecutive = false →
      (matchMessage m1).take 100 ≠ (matchMessage m2).take 100 →
      (detectErrorsLines M [p] maxCtx (pre ++ l1 :: (mid ++ l2 :: post))).length = 2) := by
  set lines := pre ++ l1 :: (mid ++ l2 :: post) with hlines
  set e1 := mkDetectedError M maxCtx lines pre.length p l1 (matchMessage m1) with he1
  set k1 := p.type ++ ":" ++ (matchMessage m1).take 100 with hk1
  set st1 : DetectState :=
    { errors := [e1], seen := [k1], lastErrorType := some p.type,
      lastErrorLine := (pre.length : Int) } with hst1
  have hcommon : detectErrorsLines M [p] maxCtx lines =
      (detectLoop M [p] maxCtx lines (pre.length + 1 + mid.length) (l2 :: post) st1).errors := by
    unfold detectErrorsLines
    conv_lhs => rw [hlines]
    rw [detect_prefix_state M p maxCtx pre (mid ++ l2 :: post) l1 m1 hpre h1 lines]
    rw [detectLoop_nonmatching M [p] maxCtx lines mid (l2 :: post) (pre.length + 1) st1
      (fun l hl q hq => by rw [List.mem_singleton] at hq; subst hq; exact hmid l hl)]
  have hdist : ((pre.length + 1 + mid.length : Nat) : Int) - (pre.length : Int) ≤ 10 := by
    push_cast
    omega
  constructor
  · intro hgc
    rw [hcommon]
    simp only [detectLoop]
    rw [tryPatterns_single_group M maxCtx lines (pre.length + 1 + mid.length) l2 m2 p st1 h2
      ⟨rfl, hdist, hgc⟩ []]
    rw [detectLoop_nonmatching_tail M [p] maxCtx lines post (pre.length + 1 + mid.length + 1) _
      (fun l hl q hq => by rw [List.mem_singleton] at hq; subst hq; exact hpost l hl)]
    rw [mergeIntoLast_errors_length]
    rfl
  · intro hgc hne
    rw [hcommon]
    simp only [detectLoop]
    have hng : ¬(st1.lastErrorType = some p.type ∧
        ((pre.length + 1 + mid.length : Nat) : Int) - st1.lastErrorLine ≤ 10 ∧
        p.groupConsecutive = true) := by
      rw [hgc]
      simp
    have hns : st1.seen.contains (p.type ++ ":" ++ (matchMessage m2).take 100) = false := by
      simp only [hst1, List.contains_cons, List.contains_nil, Bool.or_false]
      rw [beq_eq_false_iff_ne]
      intro hEq
      rw [hk1] at hEq
      exact hne (errorKey_inj p.type _ _ hEq.symm)
    rw [tryPatterns_single_push M maxCtx lines (pre.length + 1 + mid.length) l2 m2 p st1 h2
      hng hns []]
    rw [detectLoop_nonmatching_tail M [p] maxCtx lines post (pre.length + 1 + mid.length + 1) _
      (fun l hl q hq => by rw [List.mem_singleton] at hq; subst hq; exact hpost l hl)]
    simp

/-- Witness for the amended C3 at concrete inputs: pattern `^boom(.*)`
(via `prefixRestMatcher`), batch `["x", "boom 1", "y", "boom 2"]`; with
`groupConsecutive = true` one error, with `groupConsecutive = false` (and
messages `" 1"` vs `" 2"` differing within 100 characters) two errors. -/
theorem C3_grouping_witness :
    (detectErrorsLines prefixRestMatcher
      [{ name := "b", enabled := true, type := "t", pattern := "boom", priority := 10
         groupConsecutive := true, contextExtraction := ctxDefault, extractFields := [] }] 50
      (["x"] ++ "boom 1" :: (["y"] ++ "boom 2" :: []))).length = 1 ∧
    (detectErrorsLines prefixRestMatcher
      [{ name := "b", enabled := true, type := "t", pattern := "boom", priority := 10
         groupConsecutive := false, contextExtraction := ctxDefault, extractFields := [] }] 50
      (["x"] ++ "boom 1" :: (["y"] ++ "boom 2" :: []))).length = 2 := by
  constructor
  · exact (C3_grouping prefixRestMatcher _ 50 ["x"] ["y"] [] "boom 1" "boom 2"
      ["boom 1", " 1"] ["boom 2", " 2"] (by decide) (by decide) (by decide)
      (by decide) (by decide) (by decide)).1 rfl
  · exact (C3_grouping prefixRestMatcher _ 50 ["x"] ["y"] [] "boom 1" "boom 2"
      ["boom 1", " 1"] ["boom 2", " 2"] (by decide) (by decide) (by decide)
      (by decide) (by decide) (by decide)).2 rfl (by decide)

/-- C9: the in-pass dedup keys on the error type plus exactly the first
100 characters of the extracted message.  For a `groupConsecutive = false`
pattern, when the only two matching lines of a batch extract messages that
agree on their first 100 characters, only the first produces a
`DetectedError` — even when the messages differ beyond character 100 (the
witness instantiates messages that differ at character 101). -/
theorem C9_dedup_first100 (M : RegexMatcher) (p : ErrorPattern) (maxCtx : Nat)
    (pre mid post : List String) (l1 l2 : String) (m1 m2 : List String)
    (hgc : p.groupConsecutive = false)
    (hpre : ∀ l ∈ pre, M p.pattern l = none)
    (hmid : ∀ l ∈ mid, M p.pattern l = none)
    (hpost : ∀ l ∈ post, M p.pattern l = none)
    (h1 : M p.pattern l1 = some m1) (h2 : M p.pattern l2 = some m2)
    (hkey : (matchMessage m1).take 100 = (matchMessage m2).take 100) :
    detectErrorsLines M [p] maxCtx (pre ++ l1 :: (mid ++ l2 :: post)) =
      [mkDetectedError M maxCtx (pre ++ l1 :: (mid ++ l2 :: post)) pre.length p l1
        (matchMessage m1)] := by
  set lines := pre ++ l1 :: (mid ++ l2 :: post) with hlines
  set e1 := mkDetectedError M maxCtx lines pre.length p l1 (matchMessage m1) with he1
  set k1 := p.type ++ ":" ++ (matchMessage m1).take 100 with hk1
  set st1 : DetectState :=
    { errors := [e1], seen := [k1], lastErrorType := some p.type,
      lastErrorLine := (pre.length : Int) } with hst1
  unfold detectErrorsLines
  conv_lhs => rw [hlines]
  rw [detect_prefix_state M p maxCtx pre (mid ++ l2 :: post) l1 m1 hpre h1 lines]
  rw [detectLoop_nonmatching M [p] maxCtx lines mid (l2 :: post) (pre.length + 1) st1
    (fun l hl q hq => by rw [List.mem_singleton] at hq; subst hq; exact hmid l hl)]
  simp only [detectLoop]
  have hng : ¬(st1.lastErrorType = some p.type ∧
      ((pre.length + 1 + mid.length : Nat) : Int) - st1.lastErrorLine ≤ 10 ∧
      p.groupConsecutive = true) := by
    rw [hgc]
    simp
  have hs : st1.seen.contains (p.type ++ ":" ++ (matchMessage m2).take 100) = true := by
    simp only [hst1, List.contains_cons, List.contains_nil, Bool.or_false]
    rw [beq_iff_eq, hk1, hkey]
  rw [tryPatterns_single_dup M maxCtx lines (pre.length + 1 + mid.length) l2 m2 p st1 h2
    hng hs]
  rw [detectLoop_nonmatching_tail M [p] maxCtx lines post (pre.length + 1 + mid.length + 1) st1
    (fun l hl q hq => by rw [List.mem_singleton] at hq; subst hq; exact hpost l hl)]

/-- A 100-character string of `'a'`s, used to build messages that agree on
their first 100 characters but differ at character 101. -/
def longA : String := String.mk (List.replicate 100 'a')

/-- Witness for C9 at concrete inputs: with the match-anything pattern
`""` (via `prefixRestMatcher`) the two lines are 101-character messages
differing only at the last character; only the first yields a
`DetectedError`. -/
theorem C9_dedup_first100_witness :
    detectErrorsLines prefixRestMatcher
      [{ name := "p", enabled := true, type := "t", pattern := "", priority := 10
         groupConsecutive := false, contextExtraction := ctxDefault, extractFields := [] }] 50
      ([] ++ (longA ++ "X") :: ([] ++ (longA ++ "Y") :: [])) =
      [mkDetectedError prefixRestMatcher 50
        ([] ++ (longA ++ "X") :: ([] ++ (longA ++ "Y") :: [])) 0
        { name := "p", enabled := true, type := "t", pattern := "", priority := 10
          groupConsecutive := false, contextExtraction := ctxDefault, extractFields := [] }
        (longA ++ "X") (matchMessage [longA ++ "X", longA ++ "X"])] := by
  exact C9_dedup_first100 prefixRestMatcher _ 50 [] [] [] (longA ++ "X") (longA ++ "Y")
    [longA ++ "X", longA ++ "X"] [longA ++ "Y", longA ++ "Y"]
    rfl (by simp) (by simp) (by simp) (by decide) (by decide) (by decide)

/-! ## First-pattern-wins (C6) -/

/-- Starting from the fresh detection state, the inner pattern loop emits
the error of the first pattern in list order whose regex matches the
line. -/
theorem tryPatterns_fresh_first (M : RegexMatcher) (maxCtx : Nat) (lines : List String)
    (i : Nat) (line : String) (ps : List ErrorPattern) (p : ErrorPattern)
    (hhead : (ps.filter (fun q => (M q.pattern line).isSome)).head? = some p) :
    ∃ m, M p.pattern line = some m ∧
      tryPatterns M maxCtx lines i line
        { errors := [], seen := [], lastErrorType := none, lastErrorLine := -1 } ps =
        { errors := [mkDetectedError M maxCtx lines i p line (matchMessage m)]
          seen := [p.type ++ ":" ++ (matchMessage m).take 100]
          lastErrorType := some p.type
          lastErrorLine := (i : Int) } := by
  induction ps with
  | nil => simp at hhead
  | cons q qs ih =>
    cases hq : M q.pattern line with
    | none =>
      rw [List.filter_cons] at hhead
      simp only [hq, Option.isSome_none, Bool.false_eq_true, if_false] at hhead
      simp only [tryPatterns, hq]
      exact ih hhead
    | some m =>
      rw [List.filter_cons] at hhead
      simp only [hq, Option.isSome_some, if_true, List.head?_cons, Option.some_inj] at hhead
      subst hhead
      refine ⟨m, hq, ?_⟩
      rw [tryPatterns_single_push M maxCtx lines i line m q _ hq (by simp) (by simp) qs]
      rfl

/-- For a pattern list sorted by priority descending, the first matching
pattern has maximal priority among all matching patterns. -/
theorem filter_head_priority_max (M : RegexMatcher) (line : String)
    (ps : List ErrorPattern)
    (hs : List.Sorted (fun a b : ErrorPattern => b.priority ≤ a.priority) ps)
    (p : ErrorPattern)
    (hhead : (ps.filter (fun q => (M q.pattern line).isSome)).head? = some p) :
    ∀ q ∈ ps, (M q.pattern line).isSome → q.priority ≤ p.priority := by
  intro q hq hmq
  have hqf : q ∈ ps.filter (fun q => (M q.pattern line).isSome) :=
    List.mem_filter.mpr ⟨hq, hmq⟩
  have hsf : List.Sorted (fun a b : ErrorPattern => b.priority ≤ a.priority)
      (ps.filter (fun q => (M q.pattern line).isSome)) := hs.filter _
  cases hf : ps.filter (fun q => (M q.pattern line).isSome) with
  | nil =>
    rw [hf] at hqf
    simp at hqf
  | cons a t =>
    rw [hf] at hhead hqf hsf
    simp only [List.head?_cons, Option.some_inj] at hhead
    subst hhead
    rcases List.mem_cons.mp hqf with h | h
    · rw [h]
    · exact (List.pairwise_cons.mp hsf).1 q h

theorem mergeConfigurations_sorted (configs : List (List ErrorPattern)) :
    List.Sorted (fun a b : ErrorPattern => b.priority ≤ a.priority)
      (mergeConfigurations configs) := by
  have htrans : ∀ (a b c : ErrorPattern),
      patternLE a b = true → patternLE b c = true → patternLE a c = true := by
    intro a b c hab hbc
    simp only [patternLE, decide_eq_true_eq] at *
    omega
  have htotal : ∀ (a b : ErrorPattern), (patternLE a b || patternLE b a) = true := by
    intro a b
    simp only [patternLE, Bool.or_eq_true, decide_eq_true_eq]
    omega
  have hms := List.sorted_mergeSort htrans htotal
    ((collectPatterns configs).filter (fun p => p.enabled))
  exact hms.imp (fun h => by simpa [patternLE] using h)

/-- A high-priority pattern of type `"A"` matching the literal `"a"`. -/
def patternA : ErrorPattern :=
  { name := "A", enabled := true, type := "A", pattern := "a", priority := 10
    groupConsecutive := false, contextExtraction := ctxDefault, extractFields := [] }

/-- A low-priority pattern of type `"B"` matching the literal `"x"`. -/
def patternB : ErrorPattern :=
  { name := "B", enabled := true, type := "B", pattern := "x", priority := 5
    groupConsecutive := false, contextExtraction := ctxDefault, extractFields := [] }

/-- C6 counterexample: in the batch `["ax", "ax"]` the second line
matches both patterns of the descending-sorted list
`[patternA, patternB]` (priorities 10 > 5), yet the match emitted for
that line comes from the LOWER-priority `patternB`: the higher-priority
match duplicates line 1's `(type, message-prefix)` key, and the `continue`
in the dedup branch moves on to the next pattern instead of ending the
line.  The claim requires the emitted match for that line to be the
highest-priority one (type `"A"`). -/
theorem C6_counterexample :
    ((litMatcher patternA.pattern "ax").isSome ∧
      (litMatcher patternB.pattern "ax").isSome ∧
      patternB.priority < patternA.priority) ∧
    (detectErrorsLines litMatcher [patternA, patternB] 50 ["ax", "ax"]).map
      (fun e => e.errorType) = ["A", "B"] := by
  exact ⟨⟨by decide, by decide, by decide⟩, by decide⟩

/-- C6 (amended): first-pattern-wins holds for a line analyzed in the
fresh per-pass state (in particular for any single-line analysis pass);
within a longer pass the in-pass dedup can divert a line to a
lower-priority pattern (see the counterexample).  (1) For every pattern
list sorted by priority descending (ties by list order) and every line
matching at least two patterns, a single-line analysis pass emits exactly
one `DetectedError`, namely the one of the first matching pattern in the
list, and that pattern's priority is maximal among all matching
patterns.  (2) The pattern lists produced by `mergeConfigurations` are
sorted by priority descending (its sort is stable, so ties keep list
order). -/
theorem C6_first_pattern_wins :
    (∀ (M : RegexMatcher) (maxCtx : Nat) (line : String) (ps : List ErrorPattern),
      List.Sorted (fun a b : ErrorPattern => b.priority ≤ a.priority) ps →
      2 ≤ (ps.filter (fun q => (M q.pattern line).isSome)).length →
      ∃ p m, (ps.filter (fun q => (M q.pattern line).isSome)).head? = some p ∧
        M p.pattern line = some m ∧
        detectErrorsLines M ps maxCtx [line] =
          [mkDetectedError M maxCtx [line] 0 p line (matchMessage m)] ∧
        ∀ q ∈ ps, (M q.pattern line).isSome → q.priority ≤ p.priority) ∧
    (∀ configs, List.Sorted (fun a b : ErrorPattern => b.priority ≤ a.priority)
      (mergeConfigurations configs)) := by
  constructor
  · intro M maxCtx line ps hs hlen
    obtain ⟨p, hp⟩ : ∃ p, (ps.filter (fun q => (M q.pattern line).isSome)).head? = some p := by
      cases hf : ps.filter (fun q => (M q.pattern line).isSome) with
      | nil =>
        rw [hf] at hlen
        simp at hlen
      | cons a t => exact ⟨a, rfl⟩
    obtain ⟨m, hm, hstate⟩ := tryPatterns_fresh_first M maxCtx [line] 0 line ps p hp
    refine ⟨p, m, hp, hm, ?_, filter_head_priority_max M line ps hs p hp⟩
    unfold detectErrorsLines
    simp only [detectLoop]
    rw [hstate]
  · exact mergeConfigurations_sorted

/-- A high-priority pattern matching `"boom"` literally. -/
def patHigh : ErrorPattern :=
  { name := "hi", enabled := true, type := "t1", pattern := "boom", priority := 10
    groupConsecutive := false, contextExtraction := ctxDefault, extractFields := [] }

/-- A low-priority pattern matching the substring `"oom"`. -/
def patLow : ErrorPattern :=
  { name := "lo", enabled := true, type := "t2", pattern := "oom", priority := 5
    groupConsecutive := false, contextExtraction := ctxDefault, extractFields := [] }

/-- Witness for C6: the line `"boom"` matches both concrete patterns; the
emitted match is the higher-priority one. -/
theorem C6_first_pattern_wins_witness :
    ∃ p m,
      (([patHigh, patLow].filter
        (fun q => (litMatcher q.pattern "boom").isSome)).head? = some p) ∧
      litMatcher p.pattern "boom" = some m ∧
      detectErrorsLines litMatcher [patHigh, patLow] 50 ["boom"] =
        [mkDetectedError litMatcher 50 ["boom"] 0 p "boom" (matchMessage m)] ∧
      ∀ q ∈ [patHigh, patLow], (litMatcher q.pattern "boom").isSome →
        q.priority ≤ p.priority :=
  C6_first_pattern_wins.1 litMatcher 50 "boom" [patHigh, patLow] (by decide) (by decide)


/-! ## Resolution aggregation

`ErrorResolver.resolveErrors` (src/errorResolver.ts, lines 236-282).  The
per-error provider fan-out is `await Promise.all(promises)` over the
enabled providers, followed by `flat()` and a stable sort by confidence
descending (`.sort((a, b) => b.confidence - a.confidence)`).  A provider
call is modelled as `Except Unit (List Resolution)`: `Except.error ()` is
a rejected promise.  `Promise.all` rejects as soon as any input rejects;
in this synchronous model the first rejection in list order is returned
(which rejection is observed does not matter below, only whether one is).
The `timestamp` field (wall clock) is external and omitted. -/

/-- `Resolution` (src/errorResolver.ts, lines 25-34); `source` is one of
`"code" | "rca" | "web"`. -/
structure Resolution where
  source : String
  title : String
  description : String
  codeSnippet : Option String
  file : Option String
  lineNumber : Option Int
  url : Option String
  confidence : Int
deriving DecidableEq, Repr

/-- Stable insertion of `a` into a descending-sorted list: `a` goes after
every element of confidence ≥ its own. -/
def insertDesc (a : Resolution) : List Resolution → List Resolution
  | [] => [a]
  | x :: xs => if a.confidence ≤ x.confidence then x :: insertDesc a xs else a :: x :: xs

/-- The stable sort `.sort((a, b) => b.confidence - a.confidence)`.
ECMAScript `Array.prototype.sort` is required to be stable, so its result
is the unique permutation sorted by confidence descending that keeps
equal-confidence elements in input order — computed here by a stable
insertion sort. -/
def sortByConfidenceDesc (rs : List Resolution) : List Resolution :=
  rs.foldl (fun acc r => insertDesc r acc) []

abbrev Provider := DetectedError → Except Unit (List Resolution)

/-- `ErrorResolution` (lines 19-23) without the external wall-clock
`timestamp`. -/
structure ErrorResolutionR where
  error : DetectedError
  resolutions : List Resolution
deriving DecidableEq, Repr

/-- `Promise.all`: all-or-nothing. -/
def promiseAll {α : Type} : List (Except Unit α) → Except Unit (List α)
  | [] => .ok []
  | .ok a :: rest => (promiseAll rest).map (a :: ·)
  | .error e :: _ => .error e

/-- One iteration of the `for (const error of errors)` loop: fan out to
every provider, await all, flatten, sort by confidence descending. -/
def resolveOneError (providers : List Provider) (e : DetectedError) :
    Except Unit ErrorResolutionR :=
  match promiseAll (providers.map (fun p => p e)) with
  | .error u => .error u
  | .ok rss => .ok { error := e, resolutions := sortByConfidenceDesc rss.flatten }

/-- `ErrorResolver.resolveErrors`: the errors are processed sequentially;
an exception escaping `await Promise.all` rejects the whole call. -/
def resolveErrors (providers : List Provider) :
    List DetectedError → Except Unit (List ErrorResolutionR)
  | [] => .ok []
  | e :: rest => do
    let r ← resolveOneError providers e
    let rs ← resolveErrors providers rest
    pure (r :: rs)

/-- The value of a provider call with a rejection degraded to `[]`. -/
def exceptListD : Except Unit (List Resolution) → List Resolution
  | .ok l => l
  | .error _ => []

/-- The `try/catch` present inside every built-in provider
(`CodeAnalyzer.analyzeError`, `RCALogSearcher` search methods,
`ClaudeAnalyzer.analyzeError`, `GeminiAnalyzer.analyzeError`, ...): a
failure of the body resolves with an empty resolution list instead of
rejecting the returned promise. -/
def catchToEmpty (f : DetectedError → Except Unit (List Resolution)) : Provider :=
  fun e => .ok (exceptListD (f e))

theorem mem_insertDesc (a y : Resolution) (l : List Resolution) :
    y ∈ insertDesc a l ↔ y = a ∨ y ∈ l := by
  induction l with
  | nil => simp [insertDesc]
  | cons x xs ih =>
    unfold insertDesc
    by_cases h : a.confidence ≤ x.confidence
    · simp only [if_pos h, List.mem_cons, ih]
      try tauto
    · simp only [if_neg h, List.mem_cons]
      try tauto

theorem sorted_insertDesc (a : Resolution) (l : List Resolution)
    (hl : List.Sorted (fun a b : Resolution => b.confidence ≤ a.confidence) l) :
    List.Sorted (fun a b : Resolution => b.confidence ≤ a.confidence) (insertDesc a l) := by
  induction l with
  | nil => simp [insertDesc]
  | cons x xs ih =>
    rw [List.sorted_cons] at hl
    unfold insertDesc
    by_cases h : a.confidence ≤ x.confidence
    · rw [if_pos h, List.sorted_cons]
      refine ⟨?_, ih hl.2⟩
      intro y hy
      rcases (mem_insertDesc a y xs).mp hy with hya | hyxs
      · rw [hya]; exact h
      · exact hl.1 y hyxs
    · rw [if_neg h, List.sorted_cons]
      refine ⟨?_, List.sorted_cons.mpr hl⟩
      intro y hy
      rcases List.mem_cons.mp hy with hyx | hyxs
      · rw [hyx]; omega
      · have := hl.1 y hyxs
        omega

theorem sortByConfidenceDesc_sorted (rs : List Resolution) :
    List.Sorted (fun a b : Resolution => b.confidence ≤ a.confidence)
      (sortByConfidenceDesc rs) := by
  suffices h : ∀ acc, List.Sorted (fun a b : Resolution => b.confidence ≤ a.confidence) acc →
      List.Sorted (fun a b : Resolution => b.confidence ≤ a.confidence)
        (rs.foldl (fun acc r => insertDesc r acc) acc) by
    exact h [] (by simp)
  induction rs with
  | nil => intro acc hacc; exact hacc
  | cons r rest ih =>
    intro acc hacc
    exact ih (insertDesc r acc) (sorted_insertDesc r acc hacc)

theorem promiseAll_map_ok {α β : Type} (xs : List α) (h : α → β) :
    promiseAll (xs.map (fun x => Except.ok (ε := Unit) (h x))) = .ok (xs.map h) := by
  induction xs with
  | nil => rfl
  | cons x rest ih =>
    simp only [List.map_cons, promiseAll, ih, Except.map]

/-- A demonstration resolution of the given confidence. -/
def resWeb (c : Int) : Resolution :=
  { source := "web", title := "t", description := "d", codeSnippet := none
    file := none, lineNumber := none, url := none, confidence := c }

/-- A provider that resolves with one resolution of confidence 80. -/
def goodProvider : Provider := fun _ => .ok [resWeb 80]

/-- A provider whose `resolve()` rejects. -/
def throwingProvider : Provider := fun _ => .error ()

/-- A demonstration detected error. -/
def demoError : DetectedError :=
  { errorMessage := "m", errorType := "t", stackTrace := none
    lineNumber := none, file := none, context := "" }

/-- C2 counterexample: with a provider set in which one provider's
`resolve` call rejects, `resolveErrors` rejects as a whole — the
`await Promise.all` rethrows — so NO `ErrorResolution` is returned at
all; in particular the good provider's confidence-80 resolution is not in
any returned `ErrorResolution.resolutions`, contradicting the claim. -/
theorem C2_counterexample :
    resolveErrors [goodProvider, throwingProvider] [demoError] = .error () := rfl

/-- C2 (amended): provider-failure isolation is implemented inside each
provider, not by the dispatcher.  For providers that catch their own
failures and resolve with `[]` (as every built-in provider does), a
failing provider contributes the empty list, and `resolveErrors` returns,
for every detected error, exactly the concatenation of all providers'
lists (in provider-registration order, with each internally-failed
provider contributing `[]`) sorted by confidence descending.  A provider
whose promise actually rejects instead aborts the whole call (see the
counterexample). -/
theorem C2_provider_isolation (fs : List (DetectedError → Except Unit (List Resolution)))
    (errs : List DetectedError) :
    resolveErrors (fs.map catchToEmpty) errs =
      .ok (errs.map (fun e =>
        { error := e
          resolutions := sortByConfidenceDesc
            ((fs.map (fun f => exceptListD (f e))).flatten) })) ∧
    (∀ e : DetectedError,
      List.Sorted (fun a b : Resolution => b.confidence ≤ a.confidence)
        (sortByConfidenceDesc ((fs.map (fun f => exceptListD (f e))).flatten))) := by
  constructor
  · induction errs with
    | nil => rfl
    | cons e rest ih =>
      have hone : resolveOneError (fs.map catchToEmpty) e =
          .ok { error := e
                resolutions := sortByConfidenceDesc
                  ((fs.map (fun f => exceptListD (f e))).flatten) } := by
        unfold resolveOneError
        rw [List.map_map]
        have : ((fun p : Provider => p e) ∘ catchToEmpty) =
            (fun f => Except.ok (ε := Unit) (exceptListD (f e))) := rfl
        rw [this, promiseAll_map_ok fs (fun f => exceptListD (f e))]
      simp only [resolveErrors, hone, ih, List.map_cons]
      rfl
  · intro e
    exact sortByConfidenceDesc_sorted _

/-! ## Percentile spreading (C5)

`RCALogSearcher.searchRCALogs` (src/errorResolver.ts dump, lines 615-675):
after gathering resolutions, sort by confidence descending; when more than
one result is present recompute each confidence as
`min(original, Math.round(95 - (index / Math.max(1, n - 1)) * 45))`;
finally `slice(0, 5)`.  `Math.round` rounds half away from zero; all
values here are positive, so it is `⌊q + 1/2⌋`. -/

/-- JS `Math.round` on the non-negative values arising here. -/
def jsRound (q : ℚ) : ℤ := ⌊q + 1 / 2⌋

/-- `Math.round(95 - percentileRank * 45)` with
`percentileRank = index / Math.max(1, count - 1)`. -/
def percentileConfidence (index count : Nat) : ℤ :=
  jsRound (95 - ((index : ℚ) / ((max 1 (count - 1) : ℕ) : ℚ)) * 45)

/-- The `forEach` body of the spreading step. -/
def spreadOne (count : Nat) (ir : Nat × Resolution) : Resolution :=
  { ir.2 with confidence := min ir.2.confidence (percentileConfidence ir.1 count) }

/-- The pure post-processing of `searchRCALogs`: sort, spread (only when
more than one result), truncate to the top 5. -/
def rcaPostProcess (resolutions : List Resolution) : List Resolution :=
  let sorted := sortByConfidenceDesc resolutions
  let spread := if 1 < sorted.length then sorted.enum.map (spreadOne sorted.length) else sorted
  spread.take 5

theorem rcaPostProcess_getElem (rs : List Resolution)
    (h : 1 < (sortByConfidenceDesc rs).length) (i : Nat) :
    (rcaPostProcess rs)[i]? = if i < 5 then
      ((sortByConfidenceDesc rs)[i]?).map
        (fun r =>
          { r with
            confidence := min r.confidence
              (percentileConfidence i (sortByConfidenceDesc rs).length) })
    else none := by
  simp only [rcaPostProcess, if_pos h, List.getElem?_take]
  by_cases hi : i < 5
  · rw [if_pos hi, if_pos hi, List.getElem?_map, List.getElem?_enum]
    cases (sortByConfidenceDesc rs)[i]? <;> simp [spreadOne]
  · rw [if_neg hi, if_neg hi]

theorem percentileConfidence_zero (count : Nat) : percentileConfidence 0 count = 95 := by
  norm_num [percentileConfidence, jsRound]

theorem percentileConfidence_le_95 (i count : Nat) : percentileConfidence i count ≤ 95 := by
  unfold percentileConfidence jsRound
  have h95 : (⌊(95 : ℚ) + 1 / 2⌋ : ℤ) = 95 := by norm_num
  rw [← h95]
  apply Int.floor_le_floor
  have hm : (0 : ℚ) < ((max 1 (count - 1) : ℕ) : ℚ) := by
    have : 1 ≤ max 1 (count - 1) := le_max_left 1 (count - 1)
    exact_mod_cast Nat.lt_of_lt_of_le Nat.zero_lt_one this
  have : (0 : ℚ) ≤ ((i : ℚ) / ((max 1 (count - 1) : ℕ) : ℚ)) * 45 := by positivity
  linarith

/-- C5: percentile spreading.  (1) For every result list whose sorted form
has more than one entry, the `i`-th returned result (`i < 5`) is the
`i`-th sorted result with confidence recomputed as
`min(original, round(95 − (i / max(1, count − 1)) · 45))` — for more than
one entry the divisor is `count − 1`, exactly the claim's formula.
(2) No result's confidence ever increases above its raw (sorted) value.
(3) The top result's confidence is always ≥ the second's.  (4) At most 5
results are returned. -/
theorem C5_percentile_spreading :
    (∀ rs : List Resolution, 1 < (sortByConfidenceDesc rs).length → ∀ i : Nat, i < 5 →
      (rcaPostProcess rs)[i]? = ((sortByConfidenceDesc rs)[i]?).map
        (fun r =>
          { r with
            confidence := min r.confidence
              (percentileConfidence i (sortByConfidenceDesc rs).length) })) ∧
    (∀ (rs : List Resolution) (i : Nat) (r r' : Resolution),
      (rcaPostProcess rs)[i]? = some r → (sortByConfidenceDesc rs)[i]? = some r' →
      r.confidence ≤ r'.confidence) ∧
    (∀ (rs : List Resolution) (r0 r1 : Resolution),
      (rcaPostProcess rs)[0]? = some r0 → (rcaPostProcess rs)[1]? = some r1 →
      r1.confidence ≤ r0.confidence) ∧
    (∀ rs : List Resolution, (rcaPostProcess rs).length ≤ 5) := by
  refine ⟨?_, ?_, ?_, ?_⟩
  · intro rs h i hi
    rw [rcaPostProcess_getElem rs h i, if_pos hi]
  · intro rs i r r' hr hr'
    by_cases h : 1 < (sortByConfidenceDesc rs).length
    · by_cases hi : i < 5
      · rw [rcaPostProcess_getElem rs h i, if_pos hi, hr'] at hr
        rw [Option.map_some'] at hr
        cases hr
        exact min_le_left _ _
      · rw [rcaPostProcess_getElem rs h i, if_neg hi] at hr
        cases hr
    · simp only [rcaPostProcess, if_neg h, List.getElem?_take] at hr
      by_cases hi : i < 5
      · rw [if_pos hi, hr'] at hr
        cases hr
        exact le_refl _
      · rw [if_neg hi] at hr
        cases hr
  · intro rs r0 r1 h0 h1
    have hlen : 1 < (sortByConfidenceDesc rs).length := by
      by_contra hle
      push_neg at hle
      simp only [rcaPostProcess, if_neg (by omega : ¬1 < (sortByConfidenceDesc rs).length),
        List.getElem?_take] at h1
      rw [if_pos (by omega : (1 : Nat) < 5),
        List.getElem?_eq_none (by omega : (sortByConfidenceDesc rs).length ≤ 1)] at h1
      cases h1
    have h0' := rcaPostProcess_getElem rs hlen 0
    have h1' := rcaPostProcess_getElem rs hlen 1
    rw [if_pos (by omega : (0 : Nat) < 5)] at h0'
    rw [if_pos (by omega : (1 : Nat) < 5)] at h1'
    rw [h0'] at h0
    rw [h1'] at h1
    obtain ⟨a, ha, hra⟩ := Option.map_eq_some'.mp h0
    obtain ⟨b, hb, hrb⟩ := Option.map_eq_some'.mp h1
    obtain ⟨ha5, hav⟩ := List.getElem?_eq_some_iff.mp ha
    obtain ⟨hb5, hbv⟩ := List.getElem?_eq_some_iff.mp hb
    have hba : b.confidence ≤ a.confidence := by
      have hp := List.pairwise_iff_getElem.mp (sortByConfidenceDesc_sorted rs) 0 1 ha5 hb5
        (by omega)
      rw [hav, hbv] at hp
      exact hp
    have hpc : percentileConfidence 1 (sortByConfidenceDesc rs).length ≤
        percentileConfidence 0 (sortByConfidenceDesc rs).length := by
      rw [percentileConfidence_zero]
      exact percentileConfidence_le_95 1 _
    rw [← hra, ← hrb]
    exact min_le_min hba hpc
  · intro rs
    simp only [rcaPostProcess]
    exact List.length_take_le 5 _

/-- A demonstration result list for the C5 witness. -/
def demoRs : List Resolution := [resWeb 90, resWeb 92, resWeb 60]

/-- Witness for C5 at concrete inputs: `demoRs` sorts to confidences
`[92, 90, 60]`, which spread to `[92, 73, 50]` (raw 90 is capped by the
percentile value `round(95 − 45/2) = 73`, raw 60 by `50`). -/
theorem C5_percentile_spreading_witness :
    ((rcaPostProcess demoRs)[1]? = ((sortByConfidenceDesc demoRs)[1]?).map
      (fun r =>
        { r with
          confidence := min r.confidence
            (percentileConfidence 1 (sortByConfidenceDesc demoRs).length) })) ∧
    (resWeb 73).confidence ≤ (resWeb 90).confidence ∧
    (resWeb 73).confidence ≤ (resWeb 92).confidence ∧
    (rcaPostProcess demoRs).length ≤ 5 := by
  have hp1 : percentileConfidence 1 3 = 73 := by
    norm_num [percentileConfidence, jsRound]
  have hsorted : sortByConfidenceDesc demoRs = [resWeb 92, resWeb 90, resWeb 60] := by
    decide
  have hlen3 : (sortByConfidenceDesc demoRs).length = 3 := by
    rw [hsorted]
    rfl
  have hgt : 1 < (sortByConfidenceDesc demoRs).length := by
    rw [hlen3]
    omega
  have hpost1 : (rcaPostProcess demoRs)[1]? = some (resWeb 73) := by
    rw [rcaPostProcess_getElem demoRs hgt 1,
      if_pos (by omega : (1 : Nat) < 5), hlen3, hp1, hsorted]
    rfl
  refine ⟨?_, ?_, ?_, ?_⟩
  · exact C5_percentile_spreading.1 demoRs hgt 1 (by omega)
  · exact C5_percentile_spreading.2.1 demoRs 1 (resWeb 73) (resWeb 90) hpost1
      (by rw [hsorted]; rfl)
  · exact C5_percentile_spreading.2.2.1 demoRs (resWeb 92) (resWeb 73)
      (by
        rw [rcaPostProcess_getElem demoRs hgt 0,
          if_pos (by omega : (0 : Nat) < 5), percentileConfidence_zero, hsorted]
        rfl)
      hpost1
  · exact C5_percentile_spreading.2.2.2 demoRs

/-! ## Notification deduplication (C8)

`activate` in src/extension.ts (lines 104-181): the debounce handler
filters detected errors through a `notifiedErrors : Set<string>` keyed by
`` `${errorType}:${errorMessage}` ``; a newly notified key is added and a
`setTimeout` deletes it after `5 * 60 * 1000` ms.  The timer is modelled
by storing an expiry instant with each key: an entry whose expiry is ≤
the current time has already been deleted by its timer. -/

def dedupExpiryMs : Nat := 5 * 60 * 1000

def notifKey (e : DetectedError) : String := e.errorType ++ ":" ++ e.errorMessage

structure NotifyState where
  entries : List (String × Nat)
deriving DecidableEq, Repr

/-- Entries whose eviction timer has fired by time `now` are gone. -/
def pruneExpired (st : NotifyState) (now : Nat) : NotifyState :=
  { entries := st.entries.filter (fun p => decide (now < p.2)) }

/-- The body of the `errors.filter` callback at time `now`: `true` means
the error is new and a notification is produced for it. -/
def processNotification (st : NotifyState) (now : Nat) (e : DetectedError) :
    NotifyState × Bool :=
  let live := pruneExpired st now
  if live.entries.any (fun p => p.1 == notifKey e) then (live, false)
  else ({ entries := (notifKey e, now + dedupExpiryMs) :: live.entries }, true)

/-- One debounce pass: filter a batch of detected errors down to the new
ones, threading the dedup set (the JS callback mutates the set while the
batch is filtered). -/
def filterNewErrors (st : NotifyState) (now : Nat) :
    List DetectedError → NotifyState × List DetectedError
  | [] => (st, [])
  | e :: rest =>
    let r1 := processNotification st now e
    let r2 := filterNewErrors r1.1 now rest
    (r2.1, if r1.2 then e :: r2.2 else r2.2)

/-- C8: notification deduplication window.  Notifying for an error at time
`t` succeeds; replaying an error with the identical `(type, message)` key
strictly before `t + 5min` produces no new notification; replaying it
strictly after `t + 5min` (the `setTimeout` eviction has fired) produces
exactly one new notification. -/
theorem C8_notification_dedup_window (e : DetectedError) (t t' : Nat) :
    (processNotification { entries := [] } t e).2 = true ∧
    (t' < t + dedupExpiryMs →
      (processNotification (processNotification { entries := [] } t e).1 t' e).2 = false) ∧
    (t + dedupExpiryMs < t' →
      (processNotification (processNotification { entries := [] } t e).1 t' e).2 = true) := by
  refine ⟨rfl, ?_, ?_⟩
  · intro h
    simp [processNotification, pruneExpired, h]
  · intro h
    have hnot : ¬(t' < t + dedupExpiryMs) := by omega
    simp [processNotification, pruneExpired, hnot]

/-- Witness for C8: time 0, replay at 1 ms (suppressed) and at
300001 ms (notified again). -/
theorem C8_notification_dedup_window_witness :
    (processNotification { entries := [] } 0 demoError).2 = true ∧
    (processNotification (processNotification { entries := [] } 0 demoError).1
      1 demoError).2 = false ∧
    (processNotification (processNotification { entries := [] } 0 demoError).1
      300001 demoError).2 = true :=
  ⟨(C8_notification_dedup_window demoError 0 1).1,
   (C8_notification_dedup_window demoError 0 1).2.1 (by norm_num [dedupExpiryMs]),
   (C8_notification_dedup_window demoError 0 300001).2.2 (by norm_num [dedupExpiryMs])⟩

/-! ## RCA relevance scoring (C4)

`RCALogSearcher` (src/errorResolver.ts dump, lines 562-1110):
`extractKeywords` (859-869), `calculateRelevance` (874-955),
`calculateTermRarity` (1075-1105), `extractPhrases` (960-972),
`extractSolution` (977-1045), `extractCodeBlocks` (1050-1069), and the
pure part of `analyzeRCAFile` (781-854).  The fixed regexes of these
functions are implemented as character-level scanners. -/

/-- JS `\w`: `[A-Za-z0-9_]`. -/
def isWordChar (c : Char) : Bool := c.isAlphanum || c = '_'

/-- Stop words of `extractKeywords`. -/
def commonWords : List String :=
  ["error", "exception", "the", "a", "an", "is", "at", "in", "of", "to"]

/-- `RCALogSearcher.extractKeywords`: lowercase, replace every character
outside `[a-z0-9\s]` by a space, split on whitespace runs, keep words
longer than 3 characters that are not stop words, de-duplicate keeping
first occurrences (JS `Set` iteration order). -/
def extractKeywords (errorMessage : String) : List String :=
  let cleaned := (toLowerStr errorMessage).toList.map
    (fun c =>
      if ('a' ≤ c ∧ c ≤ 'z') ∨ ('0' ≤ c ∧ c ≤ '9') ∨ c.isWhitespace then c else ' ')
  let words := (splitOnPredList (fun c => c.isWhitespace) cleaned).map List.asString
  let filtered := words.filter (fun w => decide (3 < w.length) && !(commonWords.contains w))
  filtered.foldl (fun acc w => if w ∈ acc then acc else acc ++ [w]) []

/-- `/^v?\d+\.\d+(\.\d+)?(-\w+)?$/` (line 1084).  The character
classes of adjacent pieces are disjoint, so the backtracking regex
matches exactly when this deterministic scan succeeds. -/
def isVersionShaped (s : String) : Bool :=
  let cs0 := s.toList
  let cs := if cs0.head? == some 'v' then cs0.drop 1 else cs0
  let d1 := cs.takeWhile Char.isDigit
  let r1 := cs.drop d1.length
  if d1.isEmpty then false
  else
    match r1 with
    | '.' :: r2 =>
      let d2 := r2.takeWhile Char.isDigit
      let r3 := r2.drop d2.length
      if d2.isEmpty then false
      else
        let step3 : Option (List Char) :=
          match r3 with
          | '.' :: r4 =>
            let d3 := r4.takeWhile Char.isDigit
            if d3.isEmpty then none else some (r4.drop d3.length)
          | r => some r
        match step3 with
        | none => false
        | some r5 =>
          match r5 with
          | [] => true
          | '-' :: r6 =>
            let w := r6.takeWhile isWordChar
            !w.isEmpty && (r6.drop w.length).isEmpty
          | _ => false
    | _ => false

/-- `RCALogSearcher.calculateTermRarity` with the weights kept in tenths
(2.0, 1.8, 1.6, 1.3, 1.0, 1.2 become 20, 18, 16, 13, 10, 12); the
anchored alternation regexes are exact-word lookups. -/
def calculateTermRarity10 (term : String) : Nat :=
  let t := toLowerStr term
  if t ∈ ["bpfman", "ebpf", "ginkgo", "konflux", "subscription", "daemon"] then 20
  else if isVersionShaped t then 18
  else if (t.toList.contains '-') ∧ 8 < t.length then 16
  else if t ∈ ["mismatch", "upgrade", "deployment", "release", "operator", "alignment"] then 13
  else if t ∈ ["version", "test", "build", "error", "issue", "problem"] then 10
  else 12

/-- A word-boundary occurrence of `kw` at index `i` of `text`:
the characters of `kw` appear there, with no word character immediately
before or after. -/
def hasWordMatchAt (text kw : List Char) (i : Nat) : Bool :=
  kw.isPrefixOf (text.drop i) &&
  (decide (i = 0) || !isWordChar (text.getD (i - 1) ' ')) &&
  (decide (text.length ≤ i + kw.length) || !isWordChar (text.getD (i + kw.length) ' '))

/-- The number of matches of
`lowerText.match(new RegExp("\\b" + kw + "\\b", 'g'))`: the keywords
produced by `extractKeywords` are non-empty `[a-z0-9]+` strings, so the
interpolated regex is the literal word between boundaries; boundary-
delimited occurrences of an all-word-character needle cannot overlap, so
the global match count is the number of positions with a boundary
match. -/
def countWordMatches (text kw : List Char) : Nat :=
  if kw.isEmpty then 0
  else ((List.range text.length).filter (hasWordMatchAt text kw)).length

/-- `RCALogSearcher.extractPhrases`: adjacent keyword pairs. -/
def extractPhrases (keywords : List String) : List String :=
  if 2 ≤ keywords.length then
    (keywords.zip (keywords.drop 1)).map (fun p => p.1 ++ " " ++ p.2)
  else []

/-- The solution-indicator list of `calculateRelevance` (lines 919-922). -/
def solutionIndicators : List String :=
  ["solution", "fix", "resolved", "workaround", "resolution",
   "how to fix", "to resolve", "steps to", "prevention", "root cause"]

/-- The file-line-reference regex of line 940 at the head of `cs`: a
slash, one or more characters that are word characters, slashes or
hyphens, then a dot, one or more word characters, a colon, one or more
digits.  `.` is not in the first class and `:` is not a word character,
so the scan is deterministic. -/
def fileLineRefAt (cs : List Char) : Bool :=
  match cs with
  | '/' :: r1 =>
    let a := r1.takeWhile (fun c => isWordChar c || c = '/' || c = '-')
    let r2 := r1.drop a.length
    if a.isEmpty then false
    else
      match r2 with
      | '.' :: r3 =>
        let b := r3.takeWhile isWordChar
        let r4 := r3.drop b.length
        if b.isEmpty then false
        else
          match r4 with
          | ':' :: r5 => !(r5.takeWhile Char.isDigit).isEmpty
          | _ => false
      | _ => false
  | _ => false

/-- The `.test(text)` of the file-line-reference regex (line 940). -/
def hasFileLineRef (text : String) : Bool :=
  text.toList.tails.any fileLineRefAt

/-- `15 + Math.min(matches.length - 1, 3) * 5` (line 901). -/
def keywordBase (occurrences : Nat) : Nat := 15 + min (occurrences - 1) 3 * 5

/-- `Math.round(baseScore * rarityWeight)` with the weight in tenths.  On
the reachable values (`baseScore ∈ {15, 20, 25, 30}`, weights in tenths of
at most 20) the float product rounds to the exact rational, and JS
`Math.round` is half-up, so the product rounds to `(b·w10 + 5) / 10`; the
C4 theorem proves this equal to the claim's exact-rational formula. -/
def roundMulTenths (b w10 : Nat) : Nat := (b * w10 + 5) / 10

/-- `RCALogSearcher.calculateRelevance` (lines 874-955).  Duplicate
keywords would be merged by the `keywordScores` map; the keyword lists
passed by `analyzeRCAFile` are already de-duplicated by
`extractKeywords`. -/
def calculateRelevance (text : String) (keywords : List String)
    (errorType : String) : Int :=
  let lowerText := toLowerStr text
  let s1 : Int := if strIncludes lowerText (toLowerStr errorType) then 40 else 0
  let phrases := extractPhrases keywords
  let s2 := s1 + 30 * ((phrases.filter
    (fun ph => strIncludes lowerText (toLowerStr ph))).length : Int)
  let matched := keywords.filter
    (fun kw => decide (0 < countWordMatches lowerText.toList (toLowerStr kw).toList))
  let s3 := s2 + ((matched.map (fun kw =>
    (roundMulTenths (keywordBase (countWordMatches lowerText.toList (toLowerStr kw).toList))
      (calculateTermRarity10 kw) : Int))).sum)
  let s4 := s3 + (if 3 ≤ matched.length then 20 else 0)
  let found := solutionIndicators.filter (fun ind => strIncludes lowerText ind)
  let s5 := s4 + 10 * (found.length : Int)
  let hasSolInd := found.any
    (fun ind => ind == "solution" || ind == "resolution" || ind == "fix")
  let s6 := s5 + (if hasSolInd then 15 else 0)
  let s7 := s6 + (if hasFileLineRef text then 10 else 0)
  let s8 := s7 - (if text.length < 500 then 10 else 0)
  max s8 0

/-- Split `cs` at the first occurrence of `pat`: `some (pre, post)` with
`cs = pre ++ pat ++ post` for the leftmost occurrence, else `none`. -/
def splitAtSub (pat : List Char) : List Char → Option (List Char × List Char)
  | [] => if pat.isEmpty then some ([], []) else none
  | c :: rest =>
    if pat.isPrefixOf (c :: rest) then some ([], (c :: rest).drop pat.length)
    else
      match splitAtSub pat rest with
      | some (pre, post) => some (c :: pre, post)
      | none => none

/-- Index of the first case-insensitive occurrence of `pat` in `cs`. -/
def findCIdx (cs pat : List Char) : Option Nat :=
  let lcs := cs.map Char.toLower
  let lpat := pat.map Char.toLower
  (List.range (cs.length + 1)).find? (fun i => lpat.isPrefixOf (lcs.drop i))

/-- One solution-section pattern of `extractSolution`: a case-insensitive
literal followed lazily by anything up to (excluding) the next occurrence
of the terminator or the end of the text — the shape of the first nine
`solutionPatterns` (lines 979-989), whose lazy body stops at the
lookahead.  Returns the whole match. -/
def matchLazySection (text : String) (lit term : String) : Option String :=
  let cs := text.toList
  match findCIdx cs lit.toList with
  | none => none
  | some i =>
    let start := cs.drop i
    let body := start.drop lit.length
    let len :=
      match splitAtSub term.toList body with
      | some (pre, _) => lit.length + pre.length
      | none => start.length
    some (start.take len).asString

/-- The nine `solutionPatterns` as (literal, lookahead-terminator) pairs.
For the `###` headers the lookahead `###` or `##` is equivalent to `##`.
The `Solution:`-style patterns stop at a blank line. -/
def solutionSectionPatterns : List (String × String) :=
  [("## Solution", "##"), ("## Resolution", "##"), ("## Fix", "##"),
   ("### Solution", "##"), ("### Resolution", "##"), ("### Fix", "##"),
   ("Solution:", "\n\n"), ("Resolution:", "\n\n"), ("How to fix:", "\n\n")]

/-- All fenced code blocks: three backticks, an optional language word, a
newline, then lazily anything up to the closing three backticks; the
capture is the interior (`extractCodeBlocks`, lines 1054-1058).  `fuel`
bounds the scan (each step consumes at least one character). -/
def extractFencedAux : Nat → List Char → List (List Char)
  | 0, _ => []
  | _, [] => []
  | fuel + 1, c :: rest =>
    if "```".toList.isPrefixOf (c :: rest) then
      let afterOpen := (c :: rest).drop 3
      let w := afterOpen.takeWhile isWordChar
      match afterOpen.drop w.length with
      | '\n' :: body =>
        (match splitAtSub "```".toList body with
         | some (inner, after) => inner :: extractFencedAux fuel after
         | none => extractFencedAux fuel rest)
      | _ => extractFencedAux fuel rest
    else extractFencedAux fuel rest

/-- All inline-code captures: a backtick, one or more non-backticks, a
backtick (`extractCodeBlocks`, lines 1061-1066). -/
def extractInlineAux : Nat → List Char → List (List Char)
  | 0, _ => []
  | _, [] => []
  | fuel + 1, c :: rest =>
    if c = '`' then
      let seg := rest.takeWhile (fun ch => decide (ch ≠ '`'))
      let r2 := rest.drop seg.length
      if !seg.isEmpty && (r2.head? == some '`') then
        seg :: extractInlineAux fuel (r2.drop 1)
      else extractInlineAux fuel rest
    else extractInlineAux fuel rest

/-- `RCALogSearcher.extractCodeBlocks` (lines 1050-1069): trimmed fenced
interiors, then inline snippets longer than 10 characters.  The inline
scan runs over the whole text, fences included, exactly as in the
source. -/
def extractCodeBlocks (text : String) : List String :=
  let cs := text.toList
  let fenced := (extractFencedAux cs.length cs).map (fun l => trimStr l.asString)
  let inline := ((extractInlineAux cs.length cs).filter
    (fun l => decide (10 < l.length))).map List.asString
  fenced ++ inline

/-- The first `replace` of the description clean-up (line 817): every
fenced block becomes a placeholder. -/
def replaceFencedAux : Nat → List Char → List Char
  | 0, cs => cs
  | _, [] => []
  | fuel + 1, c :: rest =>
    if "```".toList.isPrefixOf (c :: rest) then
      let afterOpen := (c :: rest).drop 3
      let w := afterOpen.takeWhile isWordChar
      match afterOpen.drop w.length with
      | '\n' :: body =>
        (match splitAtSub "```".toList body with
         | some (_, after) =>
           "[See code snippet below]".toList ++ replaceFencedAux fuel after
         | none => c :: replaceFencedAux fuel rest)
      | _ => c :: replaceFencedAux fuel rest
    else c :: replaceFencedAux fuel rest

/-- The second `replace` of the description clean-up (line 818): inline
code is removed. -/
def replaceInlineAux : Nat → List Char → List Char
  | 0, cs => cs
  | _, [] => []
  | fuel + 1, c :: rest =>
    if c = '`' then
      let seg := rest.takeWhile (fun ch => decide (ch ≠ '`'))
      let r2 := rest.drop seg.length
      if !seg.isEmpty && (r2.head? == some '`') then
        replaceInlineAux fuel (r2.drop 1)
      else c :: replaceInlineAux fuel rest
    else c :: replaceInlineAux fuel rest

/-- The description clean-up of `analyzeRCAFile` (lines 817-819). -/
def stripCodeBlocks (sol : String) : String :=
  let cs1 := replaceFencedAux sol.toList.length sol.toList
  trimStr (replaceInlineAux cs1.length cs1).asString

/-- The `hasCode` test of the `extractSolution` fallback (line 1030): a
fenced block or an inline snippet occurs. -/
def hasCodePattern (s : String) : Bool :=
  let cs := s.toList
  (match splitAtSub "```".toList cs with
   | some (_, after) => (splitAtSub "```".toList after).isSome
   | none => false) ||
  !(extractInlineAux cs.length cs).isEmpty

/-- Case-insensitive literal prefix: consumes `pat` from `cs`. -/
def ciPrefix (pat : String) (cs : List Char) : Option (List Char) :=
  if (pat.toList.map Char.toLower).isPrefixOf (cs.map Char.toLower) then
    some (cs.drop pat.length)
  else none

/-- The optional `to fix` / `to resolve` / `to solve` tail of the step
header; on failure the optional group is skipped. -/
def stepsTail (cs : List Char) : List Char :=
  let ws1 := cs.takeWhile (fun c => c.isWhitespace)
  if ws1.isEmpty then cs
  else
    match ciPrefix "to" (cs.drop ws1.length) with
    | none => cs
    | some r2 =>
      let ws2 := r2.takeWhile (fun c => c.isWhitespace)
      if ws2.isEmpty then cs
      else
        let r3 := r2.drop ws2.length
        match ciPrefix "fix" r3 <|> ciPrefix "resolve" r3 <|> ciPrefix "solve" r3 with
        | some r4 => r4
        | none => cs

/-- The header of the step-list pattern (line 1008), case-insensitively:
`Steps` or `Step` (with the optional tail) or `Instructions` or
`Instruction`, an optional colon, then whitespace containing a newline;
the remainder starts after the last newline of that whitespace run (the
greedy whitespace backtracks to leave a final newline). -/
def stepsHeader (cs : List Char) : Option (List Char) :=
  let afterKw : Option (List Char) :=
    match ciPrefix "steps" cs with
    | some r => some (stepsTail r)
    | none =>
      match ciPrefix "step" cs with
      | some r => some (stepsTail r)
      | none =>
        match ciPrefix "instructions" cs with
        | some r => some r
        | none => ciPrefix "instruction" cs
  match afterKw with
  | none => none
  | some r =>
    let r2 := if r.head? == some ':' then r.drop 1 else r
    let ws := r2.takeWhile (fun c => c.isWhitespace)
    let nlIdxs := (List.range ws.length).filter (fun i => ws.getD i ' ' == '\n')
    match nlIdxs.getLast? with
    | some i => some (r2.drop (i + 1))
    | none => none

/-- One bullet line of the captured step group: optional whitespace, a
bullet (`-`, `*`, or digits followed by a dot), at least one space, at
least one further character on the line, an optional newline. -/
def bulletLine (cs : List Char) : Option (List Char) :=
  let ws := cs.takeWhile (fun c => c.isWhitespace)
  let r := cs.drop ws.length
  let afterBullet : Option (List Char) :=
    match r with
    | '-' :: rr => some rr
    | '*' :: rr => some rr
    | _ =>
      let ds := r.takeWhile Char.isDigit
      if ds.isEmpty then none
      else
        match r.drop ds.length with
        | '.' :: rr => some rr
        | _ => none
  match afterBullet with
  | none => none
  | some rr =>
    let sp := rr.takeWhile (fun c => c.isWhitespace && !(c == '\n'))
    if sp.isEmpty then none
    else
      let body := (rr.drop sp.length).takeWhile (fun c => !(c == '\n'))
      if body.isEmpty then none
      else
        let r4 := (rr.drop sp.length).drop body.length
        some (if r4.head? == some '\n' then r4.drop 1 else r4)

/-- Consume as many bullet lines as possible. -/
def collectBulletLines : Nat → List Char → List Char
  | 0, cs => cs
  | fuel + 1, cs =>
    match bulletLine cs with
    | some rest => collectBulletLines fuel rest
    | none => cs

/-- The step-list pattern anchored at the head of `cs`: header, then one
or more bullet lines; returns the captured bullet group. -/
def stepsMatchAt (cs : List Char) : Option (List Char) :=
  match stepsHeader cs with
  | none => none
  | some body =>
    match bulletLine body with
    | none => none
    | some _ =>
      let rest := collectBulletLines body.length body
      some (body.take (body.length - rest.length))

/-- Leftmost match of the step-list pattern. -/
def stepsScan : Nat → List Char → Option (List Char)
  | 0, _ => none
  | _, [] => none
  | fuel + 1, c :: rest =>
    match stepsMatchAt (c :: rest) with
    | some cap => some cap
    | none => stepsScan fuel rest

/-- The `stepsPattern` stage of `extractSolution` (lines 1008-1012). -/
def stepsFallback (text : String) : Option String :=
  match stepsScan (text.length + 1) text.toList with
  | some cap => some ("Steps to resolve:\n" ++ trimStr cap.asString)
  | none => none

/-- The relevance test of the paragraph fallback (lines 1021-1023). -/
def relevantLine (keywords : List String) (line : String) : Bool :=
  let l := toLowerStr line
  (keywords.any (fun k => strIncludes l (toLowerStr k))) &&
    (strIncludes l "fix" || strIncludes l "solution" || strIncludes l "resolve" ||
     strIncludes l "workaround" || strIncludes l "to solve")

/-- The context slice of the paragraph fallback (lines 1025-1027). -/
def lineContext (lines : List String) (i : Nat) : String :=
  let start := i - 3
  let stop := min lines.length (i + 10)
  String.intercalate "\n" ((lines.drop start).take (stop - start))

/-- The paragraph-fallback loop of `extractSolution` (lines 1015-1042):
return the context of the first relevant line whose context contains
code; otherwise the context of the first relevant line, if any. -/
def fallbackScan (lines : List String) (keywords : List String) :
    Nat → List String → List String → Option String
  | _, [], paras => paras.head?
  | i, line :: rest, paras =>
    if relevantLine keywords line then
      let ctx := lineContext lines i
      if hasCodePattern ctx then some ctx
      else fallbackScan lines keywords (i + 1) rest (paras ++ [ctx])
    else fallbackScan lines keywords (i + 1) rest paras

/-- `RCALogSearcher.extractSolution` (lines 977-1045): the first matching
section pattern (trimmed whole match; the code-block check inside returns
the same value on both branches), else the step list, else the paragraph
fallback. -/
def extractSolution (text : String) (keywords : List String) : Option String :=
  match solutionSectionPatterns.findSome?
    (fun p => matchLazySection text p.1 p.2) with
  | some sol => some (trimStr sol)
  | none =>
    match stepsFallback text with
    | some s => some s
    | none =>
      let lines := splitLines text
      fallbackScan lines keywords 0 lines []

/-- `const hasSolutionSection = solution && (solution.includes(...) ...)`
(lines 827-829): JS truthiness makes an empty extracted solution count as
no section. -/
def hasExplicitSolutionSection (solution : Option String) : Bool :=
  match solution with
  | some sol => (!(sol == "")) && (strIncludes sol "## Solution" ||
      strIncludes sol "## Resolution" || strIncludes sol "## Fix")
  | none => false

/-- `path.basename` for the POSIX paths used here. -/
def baseName (p : String) : String :=
  (((splitOnCharList '/' p.toList).map List.asString).getLast?).getD p

/-- The pure part of `RCALogSearcher.analyzeRCAFile` (lines 781-854); the
document text stands in for the `openTextDocument` I/O. -/
def analyzeRCAText (filePath : String) (text : String) (e : DetectedError) :
    Option Resolution :=
  let errorKeywords := extractKeywords e.errorMessage
  let relevanceScore := calculateRelevance text errorKeywords e.errorType
  if 50 ≤ relevanceScore then
    let solution := extractSolution text errorKeywords
    let codeSnippet : Option String :=
      match solution with
      | some sol => if sol = "" then none else (extractCodeBlocks sol).head?
      | none => none
    let defaultDesc := "Found relevant RCA documentation for " ++ e.errorType ++ " error"
    let description :=
      match solution, codeSnippet with
      | some sol, some _ => if sol = "" then defaultDesc else stripCodeBlocks sol
      | some sol, none => if sol = "" then defaultDesc else sol
      | none, _ => defaultDesc
    let base := min (50 + relevanceScore / 2) 95
    let adjustedConfidence :=
      if hasExplicitSolutionSection solution then min (base + 3) 95 else base
    some { source := "rca"
           title := "📋 RCA: " ++ baseName filePath
           description := description
           codeSnippet := codeSnippet
           file := some filePath
           lineNumber := none
           url := none
           confidence := adjustedConfidence }
  else none

/-- The claim's rarity lookup as exact rationals (2.0 product-specific,
1.8 version-shaped, 1.6 hyphenated longer than 8 characters, 1.3 medium
list, 1.0 common list, 1.2 default). -/
def specRarityWeight (kw : String) : ℚ :=
  let t := toLowerStr kw
  if t ∈ ["bpfman", "ebpf", "ginkgo", "konflux", "subscription", "daemon"] then 2
  else if isVersionShaped t then 9 / 5
  else if (t.toList.contains '-') ∧ 8 < t.length then 8 / 5
  else if t ∈ ["mismatch", "upgrade", "deployment", "release", "operator", "alignment"] then 13 / 10
  else if t ∈ ["version", "test", "build", "error", "issue", "problem"] then 1
  else 6 / 5

/-- The claim's per-keyword contribution
`round((15 + 5·min(extraOccurrences, 3)) × rarityWeight)` with
`extraOccurrences` the occurrences beyond the first and `round`
half-up, in exact rational arithmetic. -/
def specKeywordContribution (kw : String) (occurrences : Nat) : ℤ :=
  jsRound ((15 + 5 * min ((occurrences : ℚ) - 1) 3) * specRarityWeight kw)

theorem rarity_tenths (kw : String) :
    specRarityWeight kw = (calculateTermRarity10 kw : ℚ) / 10 := by
  simp only [specRarityWeight, calculateTermRarity10]
  split_ifs <;> norm_num

/-- C4: RCA relevance score and confidence mapping.
(i) The integer computed by `calculateRelevance` for each keyword found
(`roundMulTenths (keywordBase occurrences) (calculateTermRarity10 kw)`,
which is what the sum over matched keywords adds) equals the claim's
`round((15 + 5·min(extraOccurrences, 3)) × rarityWeight)` in exact
rational arithmetic, with the rarity weight given by the fixed lookup.
(ii) The total score never goes below 0.
(iii) A document yields a resolution exactly when its score is at least
50.  (iv) The resulting confidence equals `min(50 + ⌊score / 2⌋, 95)`,
plus 3 more still capped at 95 when the extracted solution has an
explicit Solution/Resolution/Fix section. -/
theorem C4_relevance_confidence :
    (∀ (kw : String) (occ : Nat), 0 < occ →
      (roundMulTenths (keywordBase occ) (calculateTermRarity10 kw) : ℤ) =
        specKeywordContribution kw occ) ∧
    (∀ (text : String) (keywords : List String) (errorType : String),
      0 ≤ calculateRelevance text keywords errorType) ∧
    (∀ (filePath text : String) (e : DetectedError),
      (analyzeRCAText filePath text e).isSome ↔
        50 ≤ calculateRelevance text (extractKeywords e.errorMessage) e.errorType) ∧
    (∀ (filePath text : String) (e : DetectedError) (r : Resolution),
      analyzeRCAText filePath text e = some r →
      r.confidence =
        (if hasExplicitSolutionSection
            (extractSolution text (extractKeywords e.errorMessage)) then
          min (min (50 + calculateRelevance text (extractKeywords e.errorMessage)
            e.errorType / 2) 95 + 3) 95
        else
          min (50 + calculateRelevance text (extractKeywords e.errorMessage)
            e.errorType / 2) 95)) := by
  refine ⟨?_, ?_, ?_, ?_⟩
  · intro kw occ hocc
    unfold specKeywordContribution
    rw [rarity_tenths]
    cases occ with
    | zero => exact absurd hocc (lt_irrefl 0)
    | succ n =>
      have hb : (15 + 5 * min (((n + 1 : ℕ) : ℚ) - 1) 3) = ((keywordBase (n + 1) : ℕ) : ℚ) := by
        unfold keywordBase
        push_cast
        rw [show ((n : ℚ) + 1 - 1) = (n : ℚ) by ring]
        ring
      rw [hb]
      set b := keywordBase (n + 1) with hbdef
      set w := calculateTermRarity10 kw with hwdef
      have harg : ((b : ℚ)) * ((w : ℚ) / 10) + 1 / 2 = ((b * w + 5 : ℕ) : ℚ) / ((10 : ℕ) : ℚ) := by
        push_cast
        ring
      unfold jsRound
      rw [harg, Rat.floor_natCast_div_natCast]
      unfold roundMulTenths
      exact_mod_cast rfl
  · intro text keywords errorType
    simp only [calculateRelevance]
    exact le_max_right _ _
  · intro filePath text e
    by_cases h : 50 ≤ calculateRelevance text (extractKeywords e.errorMessage) e.errorType
    · simp only [analyzeRCAText, if_pos h]
      simpa using h
    · simp only [analyzeRCAText, if_neg h]
      simpa using h
  · intro filePath text e r h
    by_cases hs : 50 ≤ calculateRelevance text (extractKeywords e.errorMessage) e.errorType
    · simp only [analyzeRCAText, if_pos hs] at h
      cases h
      rfl
    · simp only [analyzeRCAText, if_neg hs] at h
      cases h

/-- A demonstration error whose keywords are
`["daemon", "mismatch", "failure"]`. -/
def demoErr2 : DetectedError :=
  { errorMessage := "daemon mismatch failure", errorType := "runtime", stackTrace := none
    lineNumber := none, file := none, context := "" }

/-- A demonstration RCA document: score 40 (type) + 30 (phrase) + 40
(daemon ×2, weight 2.0) + 20 (mismatch, weight 1.3) + 18 (failure, weight
1.2) + 20 (≥3 keywords) − 10 (short) = 158. -/
def demoText : String := "runtime daemon mismatch daemon failure log"

/-- The resolution produced for `demoText`: confidence
`min(50 + ⌊158 / 2⌋, 95) = 95`, no solution section. -/
def demoRCARes : Resolution :=
  { source := "rca"
    title := "📋 RCA: rca.md"
    description := "Found relevant RCA documentation for runtime error"
    codeSnippet := none
    file := some "docs/rca.md"
    lineNumber := none
    url := none
    confidence := 95 }

/-- Witness for C4 at concrete inputs: the keyword `"daemon"` seen twice,
and the resolution produced for `demoText`. -/
theorem C4_relevance_confidence_witness :
    ((roundMulTenths (keywordBase 2) (calculateTermRarity10 "daemon") : ℤ) =
      specKeywordContribution "daemon" 2) ∧
    0 ≤ calculateRelevance demoText (extractKeywords demoErr2.errorMessage)
      demoErr2.errorType ∧
    ((analyzeRCAText "docs/rca.md" demoText demoErr2).isSome ↔
      50 ≤ calculateRelevance demoText (extractKeywords demoErr2.errorMessage)
        demoErr2.errorType) ∧
    demoRCARes.confidence =
      (if hasExplicitSolutionSection
          (extractSolution demoText (extractKeywords demoErr2.errorMessage)) then
        min (min (50 + calculateRelevance demoText (extractKeywords demoErr2.errorMessage)
          demoErr2.errorType / 2) 95 + 3) 95
      else
        min (50 + calculateRelevance demoText (extractKeywords demoErr2.errorMessage)
          demoErr2.errorType / 2) 95) :=
  ⟨C4_relevance_confidence.1 "daemon" 2 (by decide),
   C4_relevance_confidence.2.1 demoText _ _,
   C4_relevance_confidence.2.2.1 "docs/rca.md" demoText demoErr2,
   C4_relevance_confidence.2.2.2 "docs/rca.md" demoText demoErr2 demoRCARes (by decide)⟩

end ErrResolver

